import Mathlib

/-!
Verification of the youtube2rpg transcript/question pipeline.

This file gives a shallow embedding, in Lean 4, of the pure computational
core of the repository:

* `generate_questions.py`: `clean_text`, `is_sponsor_segment`,
  `merge_transcript_chunks`, `extract_guest_name`, `truncate_transcript`,
  the JSON-payload dispatch of `extract_insights`, and the control flow of
  `process_transcript_file`;
* `fetch_with_gemini.py`: the fence-stripping / parsing / error-conversion
  of `generate_questions_from_audio`, the result tally of
  `fetch_playlist_questions`, and its summary persistence;
* `fetch_playlist.py`: the cumulative `_summary.json` merge of
  `fetch_playlist_transcripts`;
* `fetch_with_whisper.py`: the timestamp arithmetic of `transcribe_audio`
  and `transcribe_audio_chunked`.

Python floats are modelled as exact rationals (`ℚ`); Python strings as
Lean `String` over their character lists (ASCII semantics for the regex
character classes `\w`, `\s` and for `str.lower`, which is all the inputs
exercised here use).  External collaborators (YouTube, OpenAI, Gemini,
`json.loads`) are modelled as explicit parameters or already-parsed
values; everything the Python functions themselves compute is translated
directly from the source.
-/

set_option maxRecDepth 8000

/-! ## Python string primitives -/

/-- Python's `\s` character class / `str.strip` whitespace set
(ASCII: space, tab, newline, carriage return, form feed, vertical tab). -/
def isPySpace (c : Char) : Bool :=
  c = ' ' || c = '\t' || c = '\n' || c = '\r' || c = '\x0c' || c = '\x0b'

/-- Python's `\w` regex class (ASCII: letters, digits, underscore). -/
def isWordChar (c : Char) : Bool :=
  c.isAlpha || c.isDigit || c = '_'

/-- Strip leading and trailing whitespace from a character list
(Python `str.strip`). -/
def pyStripList (l : List Char) : List Char :=
  ((l.dropWhile isPySpace).reverse.dropWhile isPySpace).reverse

/-- Python `str.strip()`. -/
def pyStrip (s : String) : String :=
  String.mk (pyStripList s.data)

/-- Match `pat` as a literal prefix of `l`, returning the remainder. -/
def listPrefixAt : List Char → List Char → Option (List Char)
  | [], l => some l
  | _ :: _, [] => none
  | p :: ps, c :: rest => if c = p then listPrefixAt ps rest else none

/-- Python `str.startswith` on a literal. -/
def pyStartsWith (s pre : String) : Bool :=
  (listPrefixAt pre.data s.data).isSome

/-- Python `str.endswith` on a literal. -/
def pyEndsWith (s suf : String) : Bool :=
  (listPrefixAt suf.data.reverse s.data.reverse).isSome

/-- Literal substring containment on character lists (Python `in`). -/
def listContainsSub (sub : List Char) : List Char → Bool
  | [] => (listPrefixAt sub []).isSome
  | c :: rest => (listPrefixAt sub (c :: rest)).isSome || listContainsSub sub rest

/-- Python `sub in s` for strings. -/
def strContainsSub (s sub : String) : Bool :=
  listContainsSub sub.data s.data

/-- Python `" ".join(parts)`. -/
def joinSp : List String → String
  | [] => ""
  | [a] => a
  | a :: rest => a ++ " " ++ joinSp rest

/-- Python `"\n\n".join(parts)`. -/
def joinBlank : List String → String
  | [] => ""
  | [a] => a
  | a :: rest => a ++ "\n\n" ++ joinBlank rest

/-! ## clean_text (generate_questions.py lines 41-51)

`re.sub(r'\b(um|uh|uhm|hmm)\b', '', text, flags=re.IGNORECASE)` followed by
`re.sub(r'\s+', ' ', text).strip()`.  The filler scan walks the original
string left to right; at each position the alternatives `um`, `uh`, `uhm`,
`hmm` are tried in order, each requiring a word boundary on both sides
(the previous original character, tracked in `prev`, must not be a word
character, and neither may the character following the match). -/

/-- Case-insensitive ASCII character comparison (`re.IGNORECASE`). -/
def ciEq (a b : Char) : Bool := a.toLower = b.toLower

/-- Word boundary after a match: end of string or a non-word character. -/
def bAfter : List Char → Bool
  | [] => true
  | d :: _ => !(isWordChar d)

/-- Word boundary before a match (the filler alternatives all start with a
word character, so `\b` holds iff the previous character is absent or
non-word). -/
def bBefore : Option Char → Bool
  | none => true
  | some p => !(isWordChar p)

/-- Length (0, 2 or 3) of the filler alternative matched at the head of
`l`, trying `um`, `uh`, `uhm`, `hmm` in order as `re` alternation does,
each with word boundaries on both sides. -/
def fillerMatchLen (prev : Option Char) (l : List Char) : Nat :=
  if bBefore prev then
    match l with
    | a :: b :: rest2 =>
      if ciEq a 'u' && ciEq b 'm' && bAfter rest2 then 2
      else if ciEq a 'u' && ciEq b 'h' && bAfter rest2 then 2
      else
        match rest2 with
        | c :: rest3 =>
          if ciEq a 'u' && ciEq b 'h' && ciEq c 'm' && bAfter rest3 then 3
          else if ciEq a 'h' && ciEq b 'm' && ciEq c 'm' && bAfter rest3 then 3
          else 0
        | [] => 0
    | _ => 0
  else 0

/-- Remove the filler alternatives `um|uh|uhm|hmm` (whole words,
case-insensitive), scanning like `re.sub` over the original string:
on a match, drop its characters and continue after it (tracking the last
original character for the next boundary test); otherwise keep the
character and advance by one.  A match length of 2 (resp. 3) implies at
least two (resp. three) characters remain, so the fallback branches below
are unreachable. -/
def fillerGo (prev : Option Char) : List Char → List Char
  | [] => []
  | a :: rest =>
    if fillerMatchLen prev (a :: rest) = 2 then
      match rest with
      | b :: rest2 => fillerGo (some b) rest2
      | [] => []
    else if fillerMatchLen prev (a :: rest) = 3 then
      match rest with
      | _ :: c :: rest3 => fillerGo (some c) rest3
      | _ => []
    else a :: fillerGo (some a) rest

/-- Collapse every maximal whitespace run to a single space
(`re.sub(r'\s+', ' ', text)`); `prevSpace` records whether we are inside
a run already replaced. -/
def normWsGo (prevSpace : Bool) : List Char → List Char
  | [] => []
  | c :: rest =>
    if isPySpace c then
      if prevSpace then normWsGo true rest else ' ' :: normWsGo true rest
    else c :: normWsGo false rest

/-- Whitespace normalization on character lists. -/
def normWs (l : List Char) : List Char := normWsGo false l

/-- Source `clean_text`: remove standalone filler words, collapse
whitespace, strip. -/
def clean_text (text : String) : String :=
  String.mk (pyStripList (normWs (fillerGo none text.data)))

/-! ## is_sponsor_segment (generate_questions.py lines 54-66)

Each keyword pattern is a lowercase literal wrapped in `\b ... \b`; the
text is lowercased first, then each pattern is searched for
(`re.search`), i.e. tested at every position. -/

/-- Sponsor keyword literals, lowercase, in source order. -/
def sponsor_keywords : List String :=
  ["ag1", "athletic greens", "lmnt", "element",
   "insidetracker", "eight sleep", "whoop",
   "our sponsors", "today\x27s sponsor", "sponsored by",
   "use code", "discount code", "promo code",
   "drinklmnt", "athleticgreens"]

/-- Match `pat` at the head of `l` with word boundaries on both sides. -/
def wbMatchAt (pat : List Char) (prev : Option Char) (l : List Char) : Bool :=
  bBefore prev &&
    (match listPrefixAt pat l with
     | some r => bAfter r
     | none => false)

/-- Search for a word-bounded occurrence of `pat` anywhere in the list. -/
def wbSearch (pat : List Char) : Option Char → List Char → Bool
  | _, [] => false
  | prev, c :: rest => wbMatchAt pat prev (c :: rest) || wbSearch pat (some c) rest

/-- Source `is_sponsor_segment`: lowercase the text and search each
keyword pattern with word boundaries. -/
def is_sponsor_segment (text : String) : Bool :=
  let lower := text.data.map Char.toLower
  sponsor_keywords.any fun pat => wbSearch pat.data none lower

/-! ## Timestamp formatting (generate_questions.py lines 109, 133, 144)

`f"[{int(current_start // 60)}:{int(current_start % 60):02d}]"`.  On a
float, `//` floors, `%` returns a value in `[0, 60)` (divisor positive),
and `int` truncates toward zero, which on those values is the floor. -/

/-- Python `int(q // 60)` for a float modelled as a rational. -/
def pyFloorDiv60 (q : ℚ) : Int := ⌊q / 60⌋

/-- Python `int(q % 60)`: `q % 60 = q - 60 * (q // 60)` lies in `[0, 60)`,
so `int` truncation is the floor. -/
def pyMod60 (q : ℚ) : Int := ⌊q - 60 * ((⌊q / 60⌋ : Int) : ℚ)⌋

/-- Zero-pad the seconds field to two digits (`:02d`). -/
def pad2 (n : Int) : String :=
  if 0 ≤ n ∧ n < 10 then "0" ++ toString n else toString n

/-- The `[m:ss]` label attached to each merged paragraph. -/
def formatTimestamp (q : ℚ) : String :=
  "[" ++ toString (pyFloorDiv60 q) ++ ":" ++ pad2 (pyMod60 q) ++ "]"

/-! ## merge_transcript_chunks (generate_questions.py lines 69-150) -/

/-- One raw caption fragment, as stored in the transcript JSON files
(`{"text": ..., "start": ..., "duration": ...}`). -/
structure Frag where
  text : String
  start : ℚ
  duration : ℚ
deriving DecidableEq

/-- Normalize-and-flush used at paragraph breaks and at end of input
(lines 132-139 and 142-148): join with spaces, collapse whitespace,
strip, and emit `"{timestamp} {text}"` when non-empty. -/
def flushNorm (cs : ℚ) (para : List String) : List String :=
  let pt := String.mk (pyStripList (normWs (joinSp para).data))
  if pt = "" then [] else [formatTimestamp cs ++ " " ++ pt]

/-- Clean-and-flush used when a sponsor segment is detected
(lines 107-113): `clean_text(" ".join(current_paragraph))`. -/
def flushClean (cs : ℚ) (para : List String) : List String :=
  let pt := clean_text (joinSp para)
  if pt = "" then [] else [formatTimestamp cs ++ " " ++ pt]

/-- Terminal-punctuation test `text.endswith((".", "?", "!"))`. -/
def endsPunct (t : String) : Bool :=
  pyEndsWith t "." || pyEndsWith t "?" || pyEndsWith t "!"

/-- Paragraph-break condition (lines 121-130), evaluated after the current
fragment's cleaned text has been appended: long pause to the next
fragment (`float("inf")` when there is none), joined length over 500, or
terminal punctuation with more than five buffered chunks. -/
def shouldBreak (text : String) (chunkStart : ℚ) (nextStart : Option ℚ)
    (para : List String) : Prop :=
  (match nextStart with
   | none => True
   | some ns => 2 < ns - chunkStart) ∨
  500 < (joinSp para).length ∨
  (endsPunct text ∧ 5 < para.length)

instance (text : String) (chunkStart : ℚ) (nextStart : Option ℚ)
    (para : List String) :
    Decidable (shouldBreak text chunkStart nextStart para) := by
  unfold shouldBreak
  cases nextStart <;> exact inferInstance

/-- Loop body of `merge_transcript_chunks` (lines 92-148).  State:
`para` is `current_paragraph`, `cs` is `current_start`, `su` is
`skip_until_time`.  On a paragraph break, Python sets `current_start` to
`float("inf")` when no fragment follows; the buffer is then empty and the
value is never read, so the model passes `0`. -/
def mergeAux (ss : Bool) (para : List String) (cs su : ℚ) : List Frag → List String
  | [] => flushNorm cs para
  | f :: rest =>
    let text := pyStrip f.text
    if ss ∧ f.start < su then
      mergeAux ss para cs su rest
    else if pyStartsWith text "[" ∧ pyEndsWith text "]" then
      mergeAux ss para cs su rest
    else if ss ∧ is_sponsor_segment text then
      flushClean cs para ++ mergeAux ss [] cs (f.start + 60) rest
    else
      let cleaned := clean_text text
      let para' := if cleaned = "" then para else para ++ [cleaned]
      let nextStart := rest.head?.map Frag.start
      if shouldBreak text f.start nextStart para' ∧ para' ≠ [] then
        flushNorm cs para' ++
          mergeAux ss [] (match rest.head? with | some g => g.start | none => 0) su rest
      else
        mergeAux ss para' cs su rest

/-- Source `merge_transcript_chunks`: empty transcript gives the empty
string; otherwise run the loop with `current_start` initialized to the
first fragment's `start` and join paragraphs with blank lines. -/
def merge_transcript_chunks (transcript : List Frag) (skip_sponsors : Bool) : String :=
  match transcript with
  | [] => ""
  | f :: _ => joinBlank (mergeAux skip_sponsors [] f.start 0 transcript)

/-! ## Annotated merge

`mergeAnnAux` recomputes `mergeAux` while also recording, for each emitted
paragraph, the buffer start used for its label and the fragments whose
cleaned text was appended to its buffer, and recording the start time of
every fragment that triggered a sponsor-skip window.  `mergeAnn_spec`
below proves it renders to exactly the source function's output. -/

/-- An emitted paragraph together with its provenance: the recorded
buffer start (`tsStart`), the fragments whose cleaned text contributed
(`contribs`), and the flushed body text. -/
structure AnnPara where
  tsStart : ℚ
  contribs : List Frag
  body : String
deriving DecidableEq

/-- Render an annotated paragraph exactly as the source emits it. -/
def AnnPara.render (p : AnnPara) : String :=
  formatTimestamp p.tsStart ++ " " ++ p.body

/-- Annotated counterpart of `flushNorm`. -/
def annFlushNorm (cs : ℚ) (para : List String) (contribs : List Frag) : List AnnPara :=
  let pt := String.mk (pyStripList (normWs (joinSp para).data))
  if pt = "" then [] else [⟨cs, contribs, pt⟩]

/-- Annotated counterpart of `flushClean`. -/
def annFlushClean (cs : ℚ) (para : List String) (contribs : List Frag) : List AnnPara :=
  let pt := clean_text (joinSp para)
  if pt = "" then [] else [⟨cs, contribs, pt⟩]

/-- Annotated counterpart of `mergeAux`; the second component collects the
start times of fragments that opened a sponsor-skip window. -/
def mergeAnnAux (ss : Bool) (para : List String) (contribs : List Frag) (cs su : ℚ) :
    List Frag → List AnnPara × List ℚ
  | [] => (annFlushNorm cs para contribs, [])
  | f :: rest =>
    let text := pyStrip f.text
    if ss ∧ f.start < su then
      mergeAnnAux ss para contribs cs su rest
    else if pyStartsWith text "[" ∧ pyEndsWith text "]" then
      mergeAnnAux ss para contribs cs su rest
    else if ss ∧ is_sponsor_segment text then
      let r := mergeAnnAux ss [] [] cs (f.start + 60) rest
      (annFlushClean cs para contribs ++ r.1, f.start :: r.2)
    else
      let cleaned := clean_text text
      let para' := if cleaned = "" then para else para ++ [cleaned]
      let contribs' := if cleaned = "" then contribs else contribs ++ [f]
      let nextStart := rest.head?.map Frag.start
      if shouldBreak text f.start nextStart para' ∧ para' ≠ [] then
        let r := mergeAnnAux ss [] []
          (match rest.head? with | some g => g.start | none => 0) su rest
        (annFlushNorm cs para' contribs' ++ r.1, r.2)
      else
        mergeAnnAux ss para' contribs' cs su rest

/-- Annotated merge of a whole transcript. -/
def mergeAnn (transcript : List Frag) (ss : Bool) : List AnnPara × List ℚ :=
  match transcript with
  | [] => ([], [])
  | f :: _ => mergeAnnAux ss [] [] f.start 0 transcript

/-! ## extract_guest_name (generate_questions.py lines 153-183)

Three `re.search` patterns tried in order.  Each pattern's greedy pieces
(`\s*`, `\s+`, `[a-z]+`) are followed by tokens no shortened match could
satisfy (an uppercase letter, `|`, `:` or end of string), so the greedy
scan below is exactly the regex semantics, with no backtracking needed. -/

/-- ASCII `[A-Z]`. -/
def isUpperAZ (c : Char) : Bool := 'A' ≤ c && c ≤ 'Z'

/-- ASCII `[a-z]`. -/
def isLowerAZ (c : Char) : Bool := 'a' ≤ c && c ≤ 'z'

/-- Greedy one-or-more span of characters satisfying `p`, returning the
consumed characters and the remainder. -/
def span1 (p : Char → Bool) : List Char → Option (List Char × List Char)
  | [] => none
  | c :: rest => if p c then some (c :: rest.takeWhile p, rest.dropWhile p) else none

/-- Match `[A-Z][a-z]+`, returning consumed characters and remainder. -/
def nameTok : List Char → Option (List Char × List Char)
  | [] => none
  | c :: rest =>
    if isUpperAZ c then
      match span1 isLowerAZ rest with
      | some (low, r) => some (c :: low, r)
      | none => none
    else none

/-- Match `Dr\.?\s+[A-Z][a-z]+\s+[A-Z][a-z]+` at the head of `l`. -/
def drPat (l : List Char) : Option (List Char × List Char) :=
  match l with
  | 'D' :: 'r' :: rest =>
    let dotSplit : List Char × List Char :=
      match rest with
      | '.' :: r => (['.'], r)
      | _ => ([], rest)
    (match span1 isPySpace dotSplit.2 with
     | some (ws1, r2) =>
       (match nameTok r2 with
        | some (n1, r3) =>
          (match span1 isPySpace r3 with
           | some (ws2, r4) =>
             (match nameTok r4 with
              | some (n2, r5) =>
                some ('D' :: 'r' :: dotSplit.1 ++ ws1 ++ n1 ++ ws2 ++ n2, r5)
              | none => none)
           | none => none)
        | none => none)
     | none => none)
  | _ => none

/-- Match `[A-Z][a-z]+\s+[A-Z][a-z]+` at the head of `l`. -/
def namePair (l : List Char) : Option (List Char × List Char) :=
  match nameTok l with
  | some (n1, r1) =>
    (match span1 isPySpace r1 with
     | some (ws, r2) =>
       (match nameTok r2 with
        | some (n2, r3) => some (n1 ++ ws ++ n2, r3)
        | none => none)
     | none => none)
  | none => none

/-- Pattern 1, `re.search(r'\|\s*(Dr\.?\s+[A-Z][a-z]+\s+[A-Z][a-z]+)', title)`:
leftmost `|` from which the guest pattern matches; returns group 1. -/
def searchRule1 : List Char → Option (List Char)
  | [] => none
  | c :: rest =>
    if c = '|' then
      match drPat (rest.dropWhile isPySpace) with
      | some (cap, _) => some cap
      | none => searchRule1 rest
    else searchRule1 rest

/-- Pattern 2, `re.search(r'^(Dr\.?\s+[A-Z][a-z]+\s+[A-Z][a-z]+)\s*:', title)`:
anchored at the start, followed by optional whitespace and a colon. -/
def rule2Match (l : List Char) : Option (List Char) :=
  match drPat l with
  | some (cap, r) =>
    (match r.dropWhile isPySpace with
     | ':' :: _ => some cap
     | _ => none)
  | none => none

/-- Python `$`: end of string, or just before a single trailing newline. -/
def reDollar : List Char → Bool
  | [] => true
  | [c] => c = '\n'
  | _ => false

/-- Pattern 3, `re.search(r'\|\s*([A-Z][a-z]+\s+[A-Z][a-z]+)(?:\s*\||$)', title)`:
leftmost `|` from which a two-token capitalized name matches, followed by
another (whitespace-preceded) `|` or the end of the string. -/
def searchRule3 : List Char → Option (List Char)
  | [] => none
  | c :: rest =>
    if c = '|' then
      match namePair (rest.dropWhile isPySpace) with
      | some (cap, r) =>
        if (match r.dropWhile isPySpace with
            | '|' :: _ => true
            | _ => false) || reDollar r then
          some cap
        else searchRule3 rest
      | none => searchRule3 rest
    else searchRule3 rest

/-- Source `extract_guest_name`: try the three patterns in priority order;
pattern 3's match is discarded (returning `None`, not retrying) when the
captured guest contains `"Huberman"` or `"Series"`. -/
def extract_guest_name (title : String) : Option String :=
  match searchRule1 title.data with
  | some cap => some (String.mk (pyStripList cap))
  | none =>
    match rule2Match title.data with
    | some cap => some (String.mk (pyStripList cap))
    | none =>
      match searchRule3 title.data with
      | some cap =>
        let guest := String.mk (pyStripList cap)
        if strContainsSub guest "Huberman" = false ∧ strContainsSub guest "Series" = false then
          some guest
        else none
      | none => none

/-! ## truncate_transcript (generate_questions.py lines 186-200) -/

/-- Python `text[:n]` for a nonnegative bound. -/
def pyTake (s : String) (n : Nat) : String :=
  String.mk (s.data.take n)

/-- Python `text[-n:]` for a nonnegative bound: the last `n` characters,
except that `text[-0:]` is the whole string. -/
def pyTakeLast (s : String) (n : Nat) : String :=
  if n = 0 then s else String.mk (s.data.drop (s.data.length - n))

/-- The literal inserted between the kept halves (with its surrounding
blank lines, as in the source f-string). -/
def omission_marker : String := "[... middle portion truncated for length ...]"

/-- Source `truncate_transcript`: budget `max_tokens * 4` characters; at
or under budget the text is returned unchanged, otherwise the first and
last `max_chars // 2` characters are kept around the omission marker. -/
def truncate_transcript (text : String) (max_tokens : Nat) : String :=
  let max_chars := max_tokens * 4
  if text.length ≤ max_chars then text
  else
    let portion_size := max_chars / 2
    pyTake text portion_size ++ "\n\n" ++ omission_marker ++ "\n\n" ++
      pyTakeLast text portion_size

/-! ## JSON payloads and extract_insights (generate_questions.py lines 203-237)

`json.loads` output is modelled as an explicit `Json` value (the call to
OpenAI and the parser itself are external); `extract_insights` is then
the dispatch on that parsed payload (lines 225-237), with a Python
`AttributeError` (calling `.values()` on a truthy non-dict) surfaced as
an `Except.error`, since only `json.JSONDecodeError` is caught. -/

/-- Parsed JSON values; objects keep their key insertion order, as Python
dicts do. -/
inductive Json where
  | null
  | bool (b : Bool)
  | num (q : ℚ)
  | str (s : String)
  | arr (items : List Json)
  | obj (fields : List (String × Json))

/-- Python `key in d` for a dict modelled as an ordered association list. -/
def pyDictContains (kvs : List (String × Json)) (k : String) : Bool :=
  kvs.any fun kv => kv.1 = k

/-- Python `d[key]` lookup (first binding). -/
def pyDictGet (kvs : List (String × Json)) (k : String) : Option Json :=
  (kvs.find? fun kv => kv.1 = k).map fun kv => kv.2

/-- Python truthiness of a parsed JSON value. -/
def pyTruthy : Json → Bool
  | .null => false
  | .bool b => b
  | .num q => q ≠ 0
  | .str s => s ≠ ""
  | .arr items => !items.isEmpty
  | .obj fields => !fields.isEmpty

/-- Dispatch of `extract_insights` on a successfully parsed payload
(lines 228-234): a list is returned directly; a dict containing the key
`"insights"` yields that key's value; otherwise a truthy value must be a
dict (else `.values()` raises `AttributeError`) and its first value is
returned; a falsy value yields `[]`. -/
def extractInsightsFromParsed : Json → Except String Json
  | .arr items => .ok (.arr items)
  | .obj kvs =>
    (match pyDictGet kvs "insights" with
     | some v => .ok v
     | none =>
       match kvs with
       | [] => .ok (.arr [])
       | kv :: _ => .ok kv.2)
  | .null => .ok (.arr [])
  | .bool b => if b then .error "AttributeError" else .ok (.arr [])
  | .num q => if q = 0 then .ok (.arr []) else .error "AttributeError"
  | .str s => if s = "" then .ok (.arr []) else .error "AttributeError"

/-- Source `extract_insights` after the external call, taking the outcome
of `json.loads(content)` (`none` models `json.JSONDecodeError`, which is
caught and yields `[]` with a warning; lines 235-237). -/
def extract_insights (parseOutcome : Option Json) : Except String Json :=
  match parseOutcome with
  | none => .ok (.arr [])
  | some parsed => extractInsightsFromParsed parsed

/-- Modelled from the spec's words for comparison (§4.3): "if it is a
list, use it directly as the Insight set; if it is an object containing a
key that is itself a list, unwrap it; otherwise take the first value
found". -/
def specExtractInsightsParsed : Json → Option Json
  | .arr items => some (.arr items)
  | .obj kvs =>
    (match kvs.find? fun kv => (match kv.2 with | .arr _ => true | _ => false) with
     | some kv => some kv.2
     | none => (kvs.head?).map fun kv => kv.2)
  | _ => none

/-- Control flow of `process_transcript_file` (lines 270-331) around the
two generation stages: an empty transcript is skipped (returns `None`,
line 284-286); the insight stage runs (an uncaught `AttributeError`
propagates); falsy insights skip question generation (returns `None`,
lines 302-304); otherwise the question stage `gen` runs exactly once on
the insights.  File I/O and the OpenAI client are external. -/
def process_transcript_file (transcript : List Frag) (parseOutcome : Option Json)
    (gen : Json → Json) : Except String (Option Json) :=
  if transcript = [] then .ok none
  else
    match extract_insights parseOutcome with
    | .error e => .error e
    | .ok insights =>
      if pyTruthy insights then .ok (some (gen insights)) else .ok none

/-! ## generate_questions_from_audio (fetch_with_gemini.py lines 222-272)

The audio upload and the Gemini call are external: their combined outcome
is a parameter `callResult` (`Except.error e` models any exception raised
up to and including `response.text`, whose message Python renders with
`str(e)`).  `json.loads` is likewise a parameter `jsonParse` (`none`
models `json.JSONDecodeError`).  Everything after the call — fence
stripping, strip, parse, field extraction, and the conversion of every
exception into a `success: False` dict by the enclosing
`try`/`except Exception` — is translated from the source.  Calling
`.get` on a parsed non-dict raises `AttributeError`, which the same
`except` converts to a failure. -/

/-- Result dict of `generate_questions_from_audio`: either
`{"success": True, "summary": ..., "key_takeaways": ..., "questions": ...}`
or `{"success": False, "error": str(e)}`. -/
inductive GemResult where
  | ok (summary : Json) (key_takeaways : Json) (questions : Json)
  | failure (error : String)

/-- Python `d.get(key, default)`. -/
def pyDictGetD (kvs : List (String × Json)) (k : String) (d : Json) : Json :=
  match pyDictGet kvs k with
  | some v => v
  | none => d

/-- Markdown fence stripping (lines 255-258): if `"```json"` occurs, take
what lies between its first occurrence and the next fence; else if
`"```"` occurs, take what lies between the first two fences; else leave
the text unchanged. -/
def stripFence (responseText : String) : String :=
  if strContainsSub responseText "```json" then
    ((responseText.splitOn "```json").getD 1 "").splitOn "```" |>.getD 0 ""
  else if strContainsSub responseText "```" then
    ((responseText.splitOn "```").getD 1 "").splitOn "```" |>.getD 0 ""
  else responseText

/-- Source `generate_questions_from_audio` (lines 222-272). -/
def generate_questions_from_audio (callResult : Except String String)
    (jsonParse : String → Option Json) : GemResult :=
  match callResult with
  | .error e => .failure e
  | .ok responseText =>
    match jsonParse (pyStrip (stripFence responseText)) with
    | none => .failure "JSONDecodeError"
    | some (.obj kvs) =>
      .ok (pyDictGetD kvs "summary" (.str ""))
        (pyDictGetD kvs "key_takeaways" (.arr []))
        (pyDictGetD kvs "questions" (.arr []))
    | some _ => .failure "AttributeError"

/-! ## Run summaries (fetch_playlist.py lines 121-198,
fetch_with_gemini.py lines 355-405) -/

/-- One entry of the transcript orchestrator's per-video outcome list. -/
structure VideoOutcome where
  video_id : String
  title : String
  filename : String
  success : Bool
deriving DecidableEq

/-- The transcript orchestrator's `results_summary` /
persisted `_summary.json`. -/
structure TranscriptRunSummary where
  total_videos : Nat
  successful : Nat
  failed : Nat
  videos : List VideoOutcome
deriving DecidableEq

/-- Summary persistence of `fetch_playlist_transcripts`
(fetch_playlist.py lines 186-198): given the pre-existing persisted
summary (if any) and this run's summary, the written file adds the
counters and concatenates the video lists (existing first). -/
def fetch_playlist_summary_write (existing : Option TranscriptRunSummary)
    (run : TranscriptRunSummary) : TranscriptRunSummary :=
  match existing with
  | none => run
  | some e =>
    { total_videos := run.total_videos + e.total_videos
      successful := run.successful + e.successful
      failed := run.failed + e.failed
      videos := e.videos ++ run.videos }

/-- The Gemini orchestrator's persisted `_summary.json`
(fetch_with_gemini.py lines 395-402): counters plus elapsed time, with no
per-video outcome list. -/
structure GeminiRunSummary where
  total_videos : Nat
  successful : Nat
  failed : Nat
  skipped : Nat
  elapsed_seconds : ℚ
deriving DecidableEq

/-- Summary persistence of `fetch_playlist_questions`
(fetch_with_gemini.py lines 394-405): the file is opened with mode `'w'`
and this run's summary is written; any pre-existing summary is ignored
and overwritten. -/
def fetch_with_gemini_summary_write (_existing : Option GeminiRunSummary)
    (run : GeminiRunSummary) : GeminiRunSummary :=
  run

/-! ## Worker-result tally (fetch_with_gemini.py lines 355-388)

One future is submitted per playlist video and `as_completed` yields each
exactly once, so the collected outcomes are modelled as one list entry
per submitted video (in completion order).  `process_video` either
returns a dict — with `"skipped": True` (checked first) or a `"success"`
flag — or raises, which the collection loop counts as failed. -/

/-- Per-video worker outcome as seen by the collection loop. -/
inductive WorkerOutcome where
  | completed (skipped : Bool) (success : Bool)
  | exc
deriving DecidableEq

/-- Counter record `results` of `fetch_playlist_questions`. -/
structure GeminiCounters where
  total : Nat
  successful : Nat
  failed : Nat
  skipped : Nat
deriving DecidableEq

/-- One iteration of the result-collection loop (lines 376-388). -/
def tallyStep (r : GeminiCounters) : WorkerOutcome → GeminiCounters
  | .completed true _ => { r with skipped := r.skipped + 1 }
  | .completed false true => { r with successful := r.successful + 1 }
  | .completed false false => { r with failed := r.failed + 1 }
  | .exc => { r with failed := r.failed + 1 }

/-- Counters after the collection loop: `total` is initialized to
`len(videos)` (line 356) and the loop increments exactly one counter per
completed future. -/
def fetch_playlist_questions_tally (outcomes : List WorkerOutcome) : GeminiCounters :=
  outcomes.foldl tallyStep ⟨outcomes.length, 0, 0, 0⟩

/-! ## Whisper timestamp arithmetic (fetch_with_whisper.py lines 120-222)

The Whisper API response is external; its `segments` (each with `start`
and `end` in seconds of the sped-up audio, and a `text`) are taken as
input.  For the chunked path, each chunk carries its pydub length
`len(chunk)` in milliseconds. -/

/-- One segment of a Whisper `verbose_json` response (`end` is a Lean
keyword, stored as `stop`). -/
structure WhisperSegment where
  text : String
  start : ℚ
  stop : ℚ
deriving DecidableEq

/-- One 10-minute audio chunk together with the segments Whisper returned
for it. -/
structure AudioChunk where
  lengthMs : ℚ
  segments : List WhisperSegment
deriving DecidableEq

/-- Source `transcribe_audio` segment conversion (lines 142-148): emitted
`start` is `segment.start * speed_multiplier`, emitted `duration` is
`(segment.end - segment.start) * speed_multiplier`. -/
def transcribe_audio (segments : List WhisperSegment) (speed_multiplier : ℚ) : List Frag :=
  segments.map fun s =>
    { text := pyStrip s.text
      start := s.start * speed_multiplier
      duration := (s.stop - s.start) * speed_multiplier }

/-- Chunk loop of `transcribe_audio_chunked` (lines 180-212):
`time_offset` accumulates `len(chunk) / 1000` (sped-up seconds) after
each chunk; each segment is emitted with
`start = (time_offset + segment.start) * speed_multiplier` and
`duration = (segment.end - segment.start) * speed_multiplier`. -/
def transcribeChunkedGo (speed_multiplier time_offset : ℚ) : List AudioChunk → List Frag
  | [] => []
  | c :: rest =>
    (c.segments.map fun s =>
      { text := pyStrip s.text
        start := (time_offset + s.start) * speed_multiplier
        duration := (s.stop - s.start) * speed_multiplier }) ++
      transcribeChunkedGo speed_multiplier (time_offset + c.lengthMs / 1000) rest

/-- Source `transcribe_audio_chunked` (lines 161-222), starting from
`time_offset = 0`. -/
def transcribe_audio_chunked (chunks : List AudioChunk) (speed_multiplier : ℚ) : List Frag :=
  transcribeChunkedGo speed_multiplier 0 chunks

/-- Cumulative sped-up-seconds offset in effect for each chunk: the sum
of `len(chunk) / 1000` over all earlier chunks. -/
def chunkOffsets (chunks : List AudioChunk) : List ℚ :=
  (List.range chunks.length).map fun i =>
    (((chunks.take i).map fun c => c.lengthMs / 1000).sum)

/-! # Theorems -/

/-! ## Agreement of the annotated merge with the source merge -/

theorem annFlushNorm_render (cs : ℚ) (para : List String) (contribs : List Frag) :
    (annFlushNorm cs para contribs).map AnnPara.render = flushNorm cs para := by
  simp only [annFlushNorm, flushNorm]
  split <;> simp [AnnPara.render]

theorem annFlushClean_render (cs : ℚ) (para : List String) (contribs : List Frag) :
    (annFlushClean cs para contribs).map AnnPara.render = flushClean cs para := by
  simp only [annFlushClean, flushClean]
  split <;> simp [AnnPara.render]

theorem mergeAnnAux_render (ss : Bool) (l : List Frag) :
    ∀ para contribs cs su,
      (mergeAnnAux ss para contribs cs su l).1.map AnnPara.render =
        mergeAux ss para cs su l := by
  induction l with
  | nil =>
    intro para contribs cs su
    simp only [mergeAnnAux, mergeAux, annFlushNorm_render]
  | cons f rest ih =>
    intro para contribs cs su
    simp only [mergeAnnAux, mergeAux]
    split_ifs <;>
      first
        | exact ih _ _ _ _
        | (simp only [List.map_append, annFlushNorm_render, annFlushClean_render]
           rw [ih])

theorem mergeAnn_render (ts : List Frag) (ss : Bool) :
    joinBlank ((mergeAnn ts ss).1.map AnnPara.render) = merge_transcript_chunks ts ss := by
  cases ts with
  | nil => rfl
  | cons f rest =>
    simp only [mergeAnn, merge_transcript_chunks, mergeAnnAux_render]

/-! ## Flush membership helpers -/

theorem mem_annFlushNorm {p : AnnPara} {cs : ℚ} {para : List String} {contribs : List Frag}
    (h : p ∈ annFlushNorm cs para contribs) :
    p.tsStart = cs ∧ p.contribs = contribs ∧ para ≠ [] := by
  simp only [annFlushNorm] at h
  split at h
  · cases h
  · rename_i hpt
    rw [List.mem_singleton] at h
    subst h
    refine ⟨rfl, rfl, ?_⟩
    intro hpara
    subst hpara
    exact hpt rfl

theorem mem_annFlushClean {p : AnnPara} {cs : ℚ} {para : List String} {contribs : List Frag}
    (h : p ∈ annFlushClean cs para contribs) :
    p.tsStart = cs ∧ p.contribs = contribs ∧ para ≠ [] := by
  simp only [annFlushClean] at h
  split at h
  · cases h
  · rename_i hpt
    rw [List.mem_singleton] at h
    subst h
    refine ⟨rfl, rfl, ?_⟩
    intro hpara
    subst hpara
    exact hpt rfl

/-! ## Claim C1 machinery: paragraph labels and first contributing fragments -/

/-- A fragment none of the merger's drop rules applies to: nonnegative
start (the skip window starts at 0), not a bracketed annotation, no
sponsor keyword, and text that survives filler cleaning. -/
def fully_contributing (f : Frag) : Prop :=
  0 ≤ f.start ∧
  ¬(pyStartsWith (pyStrip f.text) "[" = true ∧ pyEndsWith (pyStrip f.text) "]" = true) ∧
  is_sponsor_segment (pyStrip f.text) = false ∧
  clean_text (pyStrip f.text) ≠ ""

instance (f : Frag) : Decidable (fully_contributing f) := by
  unfold fully_contributing
  exact inferInstance

theorem mergeAnnAux_tsStart (l : List Frag) :
    ∀ para contribs cs,
      (∀ f ∈ l, fully_contributing f) →
      (para = [] ↔ contribs = []) →
      (∀ g, contribs.head? = some g → g.start = cs) →
      (contribs = [] → ∀ g, l.head? = some g → g.start = cs) →
      ∀ p ∈ (mergeAnnAux true para contribs cs 0 l).1,
        p.contribs.head?.map Frag.start = some p.tsStart := by
  induction l with
  | nil =>
    intro para contribs cs hgood hsync hhead hfresh p hp
    simp only [mergeAnnAux] at hp
    obtain ⟨hts, hc, hpara⟩ := mem_annFlushNorm hp
    have hcne : contribs ≠ [] := fun hce => hpara (hsync.2 hce)
    obtain ⟨g, gs, rfl⟩ := List.exists_cons_of_ne_nil hcne
    rw [hc]
    simp [hhead g rfl, hts]
  | cons a rest ih =>
    intro para contribs cs hgood hsync hhead hfresh p hp
    have ha := hgood a (List.mem_cons_self a rest)
    have hgood' : ∀ f ∈ rest, fully_contributing f :=
      fun f hf => hgood f (List.mem_cons_of_mem a hf)
    simp only [mergeAnnAux] at hp
    split_ifs at hp with h1 h2 h3 h4 h5 h6
    · exact absurd h1.2 (not_lt.2 ha.1)
    · exact absurd h2 ha.2.1
    · rw [ha.2.2.1] at h3
      exact absurd h3.2 Bool.false_ne_true
    · exact absurd h4 ha.2.2.2
    · exact absurd h4 ha.2.2.2
    · -- paragraph break after appending this fragment
      rcases List.mem_append.1 hp with hp1 | hp2
      · obtain ⟨hts, hc, _⟩ := mem_annFlushNorm hp1
        rw [hc]
        cases contribs with
        | nil =>
          simp only [List.nil_append, List.head?_cons]
          simp [hfresh rfl a rfl, hts]
        | cons g gs =>
          simp only [List.cons_append, List.head?_cons]
          simp [hhead g rfl, hts]
      · refine ih [] []
          (match rest.head? with | some g => g.start | none => 0)
          hgood' (by simp) (by simp) ?_ p hp2
        intro _ g hg
        rw [hg]
    · -- no break: keep accumulating
      refine ih (para ++ [clean_text (pyStrip a.text)]) (contribs ++ [a]) cs
        hgood' (by simp) ?_ (by simp) p hp
      cases contribs with
      | nil =>
        intro g hg
        simp only [List.nil_append, List.head?_cons, Option.some.injEq] at hg
        subst hg
        exact hfresh rfl a rfl
      | cons g0 gs =>
        intro g hg
        simp only [List.cons_append, List.head?_cons, Option.some.injEq] at hg
        subst hg
        exact hhead g0 rfl

/-! ## Claim C2 machinery: sponsor-skip windows -/

theorem mergeAnnAux_contrib_lb (l : List Frag) :
    ∀ para contribs cs su, ∀ p ∈ (mergeAnnAux true para contribs cs su l).1,
      ∀ f ∈ p.contribs, f ∈ contribs ∨ su ≤ f.start := by
  induction l with
  | nil =>
    intro para contribs cs su p hp f hf
    simp only [mergeAnnAux] at hp
    obtain ⟨_, hc, _⟩ := mem_annFlushNorm hp
    rw [hc] at hf
    exact Or.inl hf
  | cons a rest ih =>
    intro para contribs cs su p hp f hf
    simp only [mergeAnnAux] at hp
    split_ifs at hp with h1 h2 h3 h4 h5 h6
    · exact ih para contribs cs su p hp f hf
    · exact ih para contribs cs su p hp f hf
    · rcases List.mem_append.1 hp with hp1 | hp2
      · obtain ⟨_, hc, _⟩ := mem_annFlushClean hp1
        rw [hc] at hf
        exact Or.inl hf
      · have hsu : su ≤ a.start := not_lt.1 fun hlt => h1 ⟨trivial, hlt⟩
        rcases ih [] [] cs (a.start + 60) p hp2 f hf with h | h
        · cases h
        · exact Or.inr (by linarith)
    · rcases List.mem_append.1 hp with hp1 | hp2
      · obtain ⟨_, hc, _⟩ := mem_annFlushNorm hp1
        rw [hc] at hf
        exact Or.inl hf
      · rcases ih [] [] _ su p hp2 f hf with h | h
        · cases h
        · exact Or.inr h
    · exact ih para contribs cs su p hp f hf
    · rcases List.mem_append.1 hp with hp1 | hp2
      · obtain ⟨_, hc, _⟩ := mem_annFlushNorm hp1
        rw [hc] at hf
        rcases List.mem_append.1 hf with hfc | hfa
        · exact Or.inl hfc
        · rw [List.mem_singleton] at hfa
          subst hfa
          exact Or.inr (not_lt.1 fun hlt => h1 ⟨trivial, hlt⟩)
      · rcases ih [] [] _ su p hp2 f hf with h | h
        · cases h
        · exact Or.inr h
    · rcases ih (para ++ [clean_text (pyStrip a.text)]) (contribs ++ [a]) cs su p hp f hf
        with h | h
      · rcases List.mem_append.1 h with hfc | hfa
        · exact Or.inl hfc
        · rw [List.mem_singleton] at hfa
          subst hfa
          exact Or.inr (not_lt.1 fun hlt => h1 ⟨trivial, hlt⟩)
      · exact Or.inr h

theorem mergeAnnAux_trigger_mem (l : List Frag) :
    ∀ para contribs cs su, ∀ T ∈ (mergeAnnAux true para contribs cs su l).2,
      ∃ x ∈ l, T = x.start := by
  induction l with
  | nil =>
    intro para contribs cs su T hT
    simp only [mergeAnnAux] at hT
    cases hT
  | cons a rest ih =>
    intro para contribs cs su T hT
    simp only [mergeAnnAux] at hT
    split_ifs at hT with h1 h2 h3 h4 h5 h6
    · obtain ⟨x, hx, he⟩ := ih _ _ _ _ T hT
      exact ⟨x, List.mem_cons_of_mem a hx, he⟩
    · obtain ⟨x, hx, he⟩ := ih _ _ _ _ T hT
      exact ⟨x, List.mem_cons_of_mem a hx, he⟩
    · rcases List.mem_cons.1 hT with he | hT2
      · exact ⟨a, List.mem_cons_self a rest, he⟩
      · obtain ⟨x, hx, he⟩ := ih _ _ _ _ T hT2
        exact ⟨x, List.mem_cons_of_mem a hx, he⟩
    · obtain ⟨x, hx, he⟩ := ih _ _ _ _ T hT
      exact ⟨x, List.mem_cons_of_mem a hx, he⟩
    · obtain ⟨x, hx, he⟩ := ih _ _ _ _ T hT
      exact ⟨x, List.mem_cons_of_mem a hx, he⟩
    · obtain ⟨x, hx, he⟩ := ih _ _ _ _ T hT
      exact ⟨x, List.mem_cons_of_mem a hx, he⟩
    · obtain ⟨x, hx, he⟩ := ih _ _ _ _ T hT
      exact ⟨x, List.mem_cons_of_mem a hx, he⟩

theorem mergeAnnAux_window (l : List Frag) :
    ∀ para contribs cs su,
      l.Pairwise (fun x y => x.start < y.start) →
      (∀ c ∈ contribs, ∀ x ∈ l, c.start < x.start) →
      ∀ T ∈ (mergeAnnAux true para contribs cs su l).2,
        ∀ p ∈ (mergeAnnAux true para contribs cs su l).1,
          ∀ f ∈ p.contribs, f.start < T ∨ T + 60 ≤ f.start := by
  induction l with
  | nil =>
    intro para contribs cs su _ _ T hT
    simp only [mergeAnnAux] at hT
    cases hT
  | cons a rest ih =>
    intro para contribs cs su hsort hpre T hT p hp f hf
    obtain ⟨hhead, htail⟩ := List.pairwise_cons.1 hsort
    simp only [mergeAnnAux] at hT hp
    split_ifs at hT hp with h1 h2 h3 h4 h5 h6
    · exact ih para contribs cs su htail
        (fun c hc x hx => hpre c hc x (List.mem_cons_of_mem a hx)) T hT p hp f hf
    · exact ih para contribs cs su htail
        (fun c hc x hx => hpre c hc x (List.mem_cons_of_mem a hx)) T hT p hp f hf
    · rcases List.mem_cons.1 hT with rfl | hT2
      · rcases List.mem_append.1 hp with hp1 | hp2
        · obtain ⟨_, hc, _⟩ := mem_annFlushClean hp1
          rw [hc] at hf
          exact Or.inl (hpre f hf a (List.mem_cons_self a rest))
        · rcases mergeAnnAux_contrib_lb rest [] [] cs (a.start + 60) p hp2 f hf with h | h
          · cases h
          · exact Or.inr h
      · rcases List.mem_append.1 hp with hp1 | hp2
        · obtain ⟨_, hc, _⟩ := mem_annFlushClean hp1
          rw [hc] at hf
          obtain ⟨x, hx, rfl⟩ := mergeAnnAux_trigger_mem rest [] [] cs (a.start + 60) T hT2
          exact Or.inl (hpre f hf x (List.mem_cons_of_mem a hx))
        · exact ih [] [] cs (a.start + 60) htail (by simp) T hT2 p hp2 f hf
    · rcases List.mem_append.1 hp with hp1 | hp2
      · obtain ⟨_, hc, _⟩ := mem_annFlushNorm hp1
        rw [hc] at hf
        obtain ⟨x, hx, rfl⟩ := mergeAnnAux_trigger_mem rest [] [] _ su T hT
        exact Or.inl (hpre f hf x (List.mem_cons_of_mem a hx))
      · exact ih [] [] _ su htail (by simp) T hT p hp2 f hf
    · exact ih para contribs cs su htail
        (fun c hc x hx => hpre c hc x (List.mem_cons_of_mem a hx)) T hT p hp f hf
    · rcases List.mem_append.1 hp with hp1 | hp2
      · obtain ⟨_, hc, _⟩ := mem_annFlushNorm hp1
        rw [hc] at hf
        obtain ⟨x, hx, rfl⟩ := mergeAnnAux_trigger_mem rest [] [] _ su T hT
        rcases List.mem_append.1 hf with hfc | hfa
        · exact Or.inl (hpre f hfc x (List.mem_cons_of_mem a hx))
        · rw [List.mem_singleton] at hfa
          subst hfa
          exact Or.inl (hhead x hx)
      · exact ih [] [] _ su htail (by simp) T hT p hp2 f hf
    · refine ih (para ++ [clean_text (pyStrip a.text)]) (contribs ++ [a]) cs su htail
        ?_ T hT p hp f hf
      intro c hc x hx
      rcases List.mem_append.1 hc with hcc | hca
      · exact hpre c hcc x (List.mem_cons_of_mem a hx)
      · rw [List.mem_singleton] at hca
        subst hca
        exact hhead x hx

/-! ## Claim theorems C1 and C2 -/

/-- Claim C1, counterexample to the claim as stated: on the transcript
`[Music]@0s, hello@10s` the single output paragraph is labelled `[0:00]`
— the floor minutes:seconds of the dropped bracketed fragment's start —
while the only fragment whose text contributed to it starts at 10s, whose
floor label would be `[0:10]`. -/
theorem claim_C1_counterexample :
    merge_transcript_chunks [(⟨"[Music]", 0, 0⟩ : Frag), ⟨"hello", 10, 0⟩] true
        = "[0:00] hello" ∧
    (mergeAnn [(⟨"[Music]", 0, 0⟩ : Frag), ⟨"hello", 10, 0⟩] true).1
        = [⟨0, [⟨"hello", 10, 0⟩], "hello"⟩] ∧
    formatTimestamp ((⟨"hello", 10, 0⟩ : Frag).start) = "[0:10]" ∧
    ("[0:00] hello" : String) ≠ "[0:10] hello" := by
  with_unfolding_all decide

/-- Claim C1 (amended): every output paragraph's label is the floor
minutes:seconds of the merger's tracked buffer start, which equals the
start of the paragraph's first contributing fragment whenever no fragment
of the input is dropped — i.e. when every fragment has a nonnegative
start, is not a bracketed annotation, matches no sponsor keyword, and has
text surviving filler cleaning.  (When fragments are dropped the label
can come from a dropped fragment's start, as `claim_C1_counterexample`
shows.)  The first conjunct ties the annotated run to the source
function's output; the second states the label property. -/
theorem claim_C1_amended (ts : List Frag)
    (h : ∀ f ∈ ts, fully_contributing f) :
    merge_transcript_chunks ts true =
      joinBlank ((mergeAnn ts true).1.map AnnPara.render) ∧
    ∀ p ∈ (mergeAnn ts true).1,
      p.contribs.head?.map Frag.start = some p.tsStart := by
  constructor
  · exact (mergeAnn_render ts true).symm
  · cases ts with
    | nil =>
      intro p hp
      simp [mergeAnn] at hp
    | cons f rest =>
      refine mergeAnnAux_tsStart (f :: rest) [] [] f.start h (by simp) (by simp) ?_
      intro _ g hg
      simp only [List.head?_cons, Option.some.injEq] at hg
      subst hg
      rfl

/-- Claim C1 witness: a concrete fully-contributing transcript on which
the amended theorem's hypotheses hold and its conclusion evaluates. -/
theorem claim_C1_witness :
    (∀ f ∈ [(⟨"hello world.", 5, 0⟩ : Frag)], fully_contributing f) ∧
    (merge_transcript_chunks [(⟨"hello world.", 5, 0⟩ : Frag)] true =
        joinBlank ((mergeAnn [(⟨"hello world.", 5, 0⟩ : Frag)] true).1.map AnnPara.render) ∧
      ∀ p ∈ (mergeAnn [(⟨"hello world.", 5, 0⟩ : Frag)] true).1,
        p.contribs.head?.map Frag.start = some p.tsStart) :=
  ⟨by with_unfolding_all decide, claim_C1_amended _ (by with_unfolding_all decide)⟩

/-- Claim C2, counterexample to the claim as stated: the fragment
`"[our sponsors]"` at start 0 matches a sponsor keyword, yet because the
bracketed-annotation rule drops it before the sponsor check runs, no skip
window opens and the fragment at start 1 ∈ [0, 0+60) still contributes
its text to the output. -/
theorem claim_C2_counterexample :
    is_sponsor_segment (pyStrip "[our sponsors]") = true ∧
    List.Pairwise (fun x y => x.start < y.start)
      [(⟨"[our sponsors]", 0, 0⟩ : Frag), ⟨"hello friends.", 1, 0⟩] ∧
    (0 : ℚ) ≤ 1 ∧ (1 : ℚ) < 0 + 60 ∧
    (mergeAnn [(⟨"[our sponsors]", 0, 0⟩ : Frag), ⟨"hello friends.", 1, 0⟩] true).1
        = [⟨0, [⟨"hello friends.", 1, 0⟩], "hello friends."⟩] ∧
    merge_transcript_chunks [(⟨"[our sponsors]", 0, 0⟩ : Frag), ⟨"hello friends.", 1, 0⟩] true
        = "[0:00] hello friends." := by
  with_unfolding_all decide

/-- Claim C2 (amended): for a fragment sequence strictly ordered by start
with sponsor skipping enabled, whenever the merger's sponsor check
actually fires at time `T` (recorded in the annotated run's trigger
list: the fragment was outside any active skip window, not a bracketed
annotation, and matched a sponsor keyword), no fragment with start in
`[T, T+60)` contributes text to any output paragraph.  A fragment whose
text merely matches a keyword need not fire the check
(`claim_C2_counterexample`). -/
theorem claim_C2_amended (ts : List Frag)
    (hsort : ts.Pairwise (fun x y => x.start < y.start))
    (T : ℚ) (hT : T ∈ (mergeAnn ts true).2) :
    merge_transcript_chunks ts true =
      joinBlank ((mergeAnn ts true).1.map AnnPara.render) ∧
    ∀ p ∈ (mergeAnn ts true).1, ∀ f ∈ p.contribs,
      f.start < T ∨ T + 60 ≤ f.start := by
  refine ⟨(mergeAnn_render ts true).symm, ?_⟩
  cases ts with
  | nil => simp [mergeAnn] at hT
  | cons a rest =>
    exact mergeAnnAux_window (a :: rest) [] [] a.start 0 hsort (by simp) T hT

/-- Claim C2 witness: a sponsor keyword fires at time 0; the fragment at
30s is silently skipped and the one at 70s (outside the window)
contributes, all start times respecting the window bound. -/
theorem claim_C2_witness :
    List.Pairwise (fun x y => x.start < y.start)
      [(⟨"our sponsors today", 0, 0⟩ : Frag), ⟨"buy now", 30, 0⟩, ⟨"welcome back.", 70, 0⟩] ∧
    (0 : ℚ) ∈ (mergeAnn [(⟨"our sponsors today", 0, 0⟩ : Frag), ⟨"buy now", 30, 0⟩,
      ⟨"welcome back.", 70, 0⟩] true).2 ∧
    (merge_transcript_chunks [(⟨"our sponsors today", 0, 0⟩ : Frag), ⟨"buy now", 30, 0⟩,
        ⟨"welcome back.", 70, 0⟩] true =
      joinBlank ((mergeAnn [(⟨"our sponsors today", 0, 0⟩ : Frag), ⟨"buy now", 30, 0⟩,
        ⟨"welcome back.", 70, 0⟩] true).1.map AnnPara.render) ∧
    ∀ p ∈ (mergeAnn [(⟨"our sponsors today", 0, 0⟩ : Frag), ⟨"buy now", 30, 0⟩,
        ⟨"welcome back.", 70, 0⟩] true).1, ∀ f ∈ p.contribs,
      f.start < 0 ∨ (0 : ℚ) + 60 ≤ f.start) :=
  ⟨by with_unfolding_all decide, by with_unfolding_all decide,
    claim_C2_amended _ (by with_unfolding_all decide) 0 (by with_unfolding_all decide)⟩

/-! ## Claim C3: summary persistence across runs -/

/-- Claim C3, counterexample to the claim as stated: the Gemini question
orchestrator's summary write ignores any pre-existing summary, so after
two runs each of one video, the persisted `total_videos` is 1, not the
sum 2 (and no per-video outcome list is stored at all). -/
theorem claim_C3_counterexample :
    (fetch_with_gemini_summary_write
        (some (fetch_with_gemini_summary_write none ⟨1, 1, 0, 0, 10⟩))
        ⟨1, 0, 1, 0, 5⟩).total_videos = 1 ∧
    ((⟨1, 1, 0, 0, 10⟩ : GeminiRunSummary).total_videos +
      (⟨1, 0, 1, 0, 5⟩ : GeminiRunSummary).total_videos) = 2 ∧
    (1 : Nat) ≠ 2 := by
  refine ⟨rfl, rfl, by decide⟩

/-- Claim C3 (amended): the transcript-fetch orchestrator's summary file
is merged cumulatively — after a second run over the same summary file
each counter is the sum of the two runs' counters and the video-outcome
list length is the sum of the two lengths — but the Gemini question
orchestrator overwrites its summary file with the latest run's values
alone. -/
theorem claim_C3_amended (r1 r2 : TranscriptRunSummary) (g1 g2 : GeminiRunSummary) :
    (fetch_playlist_summary_write (some (fetch_playlist_summary_write none r1)) r2).total_videos
        = r1.total_videos + r2.total_videos ∧
    (fetch_playlist_summary_write (some (fetch_playlist_summary_write none r1)) r2).successful
        = r1.successful + r2.successful ∧
    (fetch_playlist_summary_write (some (fetch_playlist_summary_write none r1)) r2).failed
        = r1.failed + r2.failed ∧
    (fetch_playlist_summary_write (some (fetch_playlist_summary_write none r1)) r2).videos.length
        = r1.videos.length + r2.videos.length ∧
    fetch_with_gemini_summary_write (some (fetch_with_gemini_summary_write none g1)) g2 = g2 := by
  refine ⟨?_, ?_, ?_, ?_, rfl⟩ <;>
    simp [fetch_playlist_summary_write, Nat.add_comm]

/-! ## Claim C4: insight payload dispatch -/

/-- Claim C4, counterexample to the claim as stated: on the payload
`{"meta": "x", "items": []}` the code returns the first value `"x"`
(there is no `"insights"` key), while the spec's rule — unwrap a key
whose value is a list — would return `[]`. -/
theorem claim_C4_counterexample :
    extractInsightsFromParsed (.obj [("meta", .str "x"), ("items", .arr [])])
        = .ok (.str "x") ∧
    specExtractInsightsParsed (.obj [("meta", .str "x"), ("items", .arr [])])
        = some (.arr []) ∧
    Json.str "x" ≠ Json.arr [] := by
  refine ⟨rfl, rfl, fun h => Json.noConfusion h⟩

/-- Claim C4 (amended): a parsed list is returned directly; an object
containing the key `"insights"` yields that key's value whether or not it
is a list; any other non-empty object yields its first value (even if a
later key holds a list); an empty object yields the empty list.  In the
remaining (non-list, non-object) `otherwise` cases the code does not
return a first value: a falsy payload (`null`, `false`, `0`, `""`) yields
the empty list, and a truthy payload raises `AttributeError` from
`.values()`, which is uncaught (only `JSONDecodeError` is handled). -/
theorem claim_C4_amended :
    (∀ items, extractInsightsFromParsed (.arr items) = .ok (.arr items)) ∧
    (∀ kvs v, pyDictGet kvs "insights" = some v →
      extractInsightsFromParsed (.obj kvs) = .ok v) ∧
    (∀ kv kvs, pyDictGet (kv :: kvs) "insights" = none →
      extractInsightsFromParsed (.obj (kv :: kvs)) = .ok kv.2) ∧
    extractInsightsFromParsed (.obj []) = .ok (.arr []) ∧
    extractInsightsFromParsed .null = .ok (.arr []) ∧
    extractInsightsFromParsed (.bool false) = .ok (.arr []) ∧
    extractInsightsFromParsed (.num 0) = .ok (.arr []) ∧
    extractInsightsFromParsed (.str "") = .ok (.arr []) ∧
    extractInsightsFromParsed (.bool true) = .error "AttributeError" ∧
    (∀ q : ℚ, q ≠ 0 → extractInsightsFromParsed (.num q) = .error "AttributeError") ∧
    (∀ s : String, s ≠ "" → extractInsightsFromParsed (.str s) = .error "AttributeError") := by
  refine ⟨fun items => rfl, ?_, ?_, rfl, rfl, rfl, ?_, ?_, rfl, ?_, ?_⟩
  · intro kvs v hv
    simp [extractInsightsFromParsed, hv]
  · intro kv kvs hnone
    simp [extractInsightsFromParsed, hnone]
  · simp [extractInsightsFromParsed]
  · simp [extractInsightsFromParsed]
  · intro q hq
    simp [extractInsightsFromParsed, hq]
  · intro s hs
    simp [extractInsightsFromParsed, hs]

/-- Claim C4 witness: the `"insights"` key is unwrapped, and a truthy
non-container payload (the number 7) raises `AttributeError`. -/
theorem claim_C4_witness :
    pyDictGet [("insights", Json.arr [])] "insights" = some (.arr []) ∧
    extractInsightsFromParsed (.obj [("insights", .arr [])]) = .ok (.arr []) ∧
    ((7 : ℚ) ≠ 0 ∧
      extractInsightsFromParsed (.num 7) = .error "AttributeError") :=
  ⟨rfl, claim_C4_amended.2.1 [("insights", .arr [])] (.arr []) rfl,
    by decide, claim_C4_amended.2.2.2.2.2.2.2.2.2.1 7 (by decide)⟩

/-! ## Claim C5: malformed insight responses -/

/-- Claim C5: a response that fails to parse as JSON makes
`extract_insights` return the empty list without raising, and
`process_transcript_file` then skips question generation entirely: its
result is `None` and is independent of the question-generation stage,
which is therefore never invoked. -/
theorem claim_C5 :
    extract_insights none = .ok (.arr []) ∧
    ∀ (transcript : List Frag) (gen gen' : Json → Json),
      process_transcript_file transcript none gen = .ok none ∧
      process_transcript_file transcript none gen
        = process_transcript_file transcript none gen' := by
  refine ⟨rfl, ?_⟩
  intro transcript gen gen'
  by_cases ht : transcript = [] <;>
    simp [process_transcript_file, ht, extract_insights, pyTruthy]

/-! ## Claim C6: transcript truncation -/

/-- Claim C6: with the budget of 80000 tokens (320000 characters), a text
at or under budget is returned unchanged; over budget the result is the
literal 160000-character prefix, one omission marker, and the literal
160000-character suffix. -/
theorem claim_C6 (t : String) :
    (t.length ≤ 320000 → truncate_transcript t 80000 = t) ∧
    (320000 < t.length →
      truncate_transcript t 80000 =
        pyTake t 160000 ++ "\n\n" ++ omission_marker ++ "\n\n" ++ pyTakeLast t 160000 ∧
      (pyTake t 160000).length = 160000 ∧
      (pyTakeLast t 160000).length = 160000) := by
  constructor
  · intro hle
    simp [truncate_transcript, hle]
  · intro hgt
    have hnle : ¬t.length ≤ 320000 := not_le.2 hgt
    have hlen : t.data.length = t.length := rfl
    refine ⟨by simp [truncate_transcript, hnle], ?_, ?_⟩
    · show (t.data.take 160000).length = 160000
      rw [List.length_take, hlen]
      omega
    · show (pyTakeLast t 160000).length = 160000
      rw [pyTakeLast, if_neg (by omega : ¬(160000 : Nat) = 0)]
      show (t.data.drop (t.data.length - 160000)).length = 160000
      rw [List.length_drop, hlen]
      omega

/-- Claim C6 witness: a short text passes through unchanged. -/
theorem claim_C6_witness : truncate_transcript "abc" 80000 = "abc" :=
  (claim_C6 "abc").1 (by decide)

/-! ## Claim C7: audio-to-questions error conversion -/

/-- Claim C7: `generate_questions_from_audio` never propagates an
exception — every run yields either a failure result or a success result;
an exception from upload/generation is converted to a failure carrying
its message; a parse failure yields a failure; and every success carries
the parsed summary, key takeaways and questions fields. -/
theorem claim_C7 :
    (∀ (callResult : Except String String) (jsonParse : String → Option Json),
      (∃ e, generate_questions_from_audio callResult jsonParse = .failure e) ∨
      (∃ s kt q, generate_questions_from_audio callResult jsonParse = .ok s kt q)) ∧
    (∀ (e : String) (jsonParse : String → Option Json),
      generate_questions_from_audio (.error e) jsonParse = .failure e) ∧
    (∀ (txt : String) (jsonParse : String → Option Json),
      jsonParse (pyStrip (stripFence txt)) = none →
      generate_questions_from_audio (.ok txt) jsonParse = .failure "JSONDecodeError") ∧
    (∀ (txt : String) (jsonParse : String → Option Json) (kvs : List (String × Json)),
      jsonParse (pyStrip (stripFence txt)) = some (.obj kvs) →
      generate_questions_from_audio (.ok txt) jsonParse =
        .ok (pyDictGetD kvs "summary" (.str ""))
          (pyDictGetD kvs "key_takeaways" (.arr []))
          (pyDictGetD kvs "questions" (.arr []))) := by
  refine ⟨?_, fun e p => rfl, ?_, ?_⟩
  · intro cr p
    cases cr with
    | error e => exact Or.inl ⟨e, rfl⟩
    | ok txt =>
      cases hp : p (pyStrip (stripFence txt)) with
      | none => exact Or.inl ⟨"JSONDecodeError", by simp [generate_questions_from_audio, hp]⟩
      | some v =>
        cases v with
        | obj kvs =>
          exact Or.inr ⟨pyDictGetD kvs "summary" (.str ""),
            pyDictGetD kvs "key_takeaways" (.arr []), pyDictGetD kvs "questions" (.arr []),
            by simp [generate_questions_from_audio, hp]⟩
        | null => exact Or.inl ⟨"AttributeError", by simp [generate_questions_from_audio, hp]⟩
        | bool b => exact Or.inl ⟨"AttributeError", by simp [generate_questions_from_audio, hp]⟩
        | num q => exact Or.inl ⟨"AttributeError", by simp [generate_questions_from_audio, hp]⟩
        | str s => exact Or.inl ⟨"AttributeError", by simp [generate_questions_from_audio, hp]⟩
        | arr items =>
          exact Or.inl ⟨"AttributeError", by simp [generate_questions_from_audio, hp]⟩
  · intro txt p hp
    simp [generate_questions_from_audio, hp]
  · intro txt p kvs hp
    simp [generate_questions_from_audio, hp]

/-- Claim C7 witness: an unparseable response becomes a failure result. -/
theorem claim_C7_witness :
    ((fun _ => none : String → Option Json) (pyStrip (stripFence "hi")) = none) ∧
    generate_questions_from_audio (.ok "hi") (fun _ => none) = .failure "JSONDecodeError" :=
  ⟨rfl, claim_C7.2.2.1 "hi" (fun _ => none) rfl⟩

/-! ## Claim C8: guest-name extraction -/

/-- Claim C8: the two example titles behave as specified, and in general
the three pattern rules are applied in priority order — rule 1 (guest
after a pipe), then rule 2 (guest at the start with a colon), then rule 3
(plain capitalized pair after a pipe, subject to the Huberman/Series
exclusion) — with `none` returned when no rule matches. -/
theorem claim_C8 :
    extract_guest_name "How to Improve Memory | Dr. Charan Ranganath"
        = some "Dr. Charan Ranganath" ∧
    extract_guest_name "Foundational Science Based Protocol" = none ∧
    (∀ (t : String) (cap : List Char), searchRule1 t.data = some cap →
      extract_guest_name t = some (String.mk (pyStripList cap))) ∧
    (∀ (t : String) (cap : List Char), searchRule1 t.data = none →
      rule2Match t.data = some cap →
      extract_guest_name t = some (String.mk (pyStripList cap))) ∧
    (∀ (t : String) (cap : List Char), searchRule1 t.data = none →
      rule2Match t.data = none → searchRule3 t.data = some cap →
      extract_guest_name t =
        (if strContainsSub (String.mk (pyStripList cap)) "Huberman" = false ∧
            strContainsSub (String.mk (pyStripList cap)) "Series" = false then
          some (String.mk (pyStripList cap)) else none)) ∧
    (∀ t : String, searchRule1 t.data = none → rule2Match t.data = none →
      searchRule3 t.data = none → extract_guest_name t = none) := by
  refine ⟨by decide, by decide, ?_, ?_, ?_, ?_⟩
  · intro t cap h1
    simp [extract_guest_name, h1]
  · intro t cap h1 h2
    simp [extract_guest_name, h1, h2]
  · intro t cap h1 h2 h3
    simp [extract_guest_name, h1, h2, h3]
  · intro t h1 h2 h3
    simp [extract_guest_name, h1, h2, h3]

/-- Claim C8 witness: rule 1 fires on a fresh title. -/
theorem claim_C8_witness :
    searchRule1 ("A | Dr. Jane Roe").data = some ("Dr. Jane Roe").data ∧
    extract_guest_name "A | Dr. Jane Roe"
        = some (String.mk (pyStripList ("Dr. Jane Roe").data)) :=
  ⟨by decide, claim_C8.2.2.1 "A | Dr. Jane Roe" ("Dr. Jane Roe").data (by decide)⟩

/-! ## Claim C9: counters partition the submitted videos -/

theorem tally_foldl_aux (outcomes : List WorkerOutcome) :
    ∀ acc : GeminiCounters,
      (outcomes.foldl tallyStep acc).total = acc.total ∧
      (outcomes.foldl tallyStep acc).successful + (outcomes.foldl tallyStep acc).failed +
          (outcomes.foldl tallyStep acc).skipped
        = acc.successful + acc.failed + acc.skipped + outcomes.length := by
  induction outcomes with
  | nil => intro acc; simp
  | cons o rest ih =>
    intro acc
    obtain ⟨h1, h2⟩ := ih (tallyStep acc o)
    have h3 : (tallyStep acc o).total = acc.total := by
      cases o with
      | completed sk su => cases sk <;> cases su <;> rfl
      | exc => rfl
    have h4 : (tallyStep acc o).successful + (tallyStep acc o).failed +
        (tallyStep acc o).skipped = acc.successful + acc.failed + acc.skipped + 1 := by
      cases o with
      | completed sk su => cases sk <;> cases su <;> (simp [tallyStep]; omega)
      | exc => simp [tallyStep]; omega
    refine ⟨?_, ?_⟩
    · rw [List.foldl_cons, h1, h3]
    · rw [List.foldl_cons, h2, h4, List.length_cons]
      omega

/-- Claim C9: in the parallel batch run each submitted video contributes
exactly one outcome, and the collected counters partition the work:
`successful + failed + skipped = total`, with `total` the number of
videos submitted. -/
theorem claim_C9 (outcomes : List WorkerOutcome) :
    (fetch_playlist_questions_tally outcomes).total = outcomes.length ∧
    (fetch_playlist_questions_tally outcomes).successful +
        (fetch_playlist_questions_tally outcomes).failed +
        (fetch_playlist_questions_tally outcomes).skipped
      = (fetch_playlist_questions_tally outcomes).total := by
  obtain ⟨h1, h2⟩ := tally_foldl_aux outcomes ⟨outcomes.length, 0, 0, 0⟩
  unfold fetch_playlist_questions_tally
  refine ⟨h1, ?_⟩
  rw [h2, h1]
  simp

/-! ## Claim C10: Whisper timestamp rescaling -/

theorem chunkOffsets_cons (c : AudioChunk) (rest : List AudioChunk) :
    chunkOffsets (c :: rest)
      = 0 :: (chunkOffsets rest).map (fun o => c.lengthMs / 1000 + o) := by
  unfold chunkOffsets
  simp [List.range_succ_eq_map, List.map_map, Function.comp_def, List.take_succ_cons]

theorem transcribeChunkedGo_spec (chunks : List AudioChunk) :
    ∀ (speed off : ℚ),
      transcribeChunkedGo speed off chunks =
        ((chunks.zip ((chunkOffsets chunks).map fun o => off + o)).map fun p =>
          p.1.segments.map fun s =>
            (⟨pyStrip s.text, (p.2 + s.start) * speed, (s.stop - s.start) * speed⟩ : Frag)).flatten := by
  induction chunks with
  | nil => intro speed off; rfl
  | cons c rest ih =>
    intro speed off
    rw [chunkOffsets_cons]
    simp only [transcribeChunkedGo, List.map_cons, List.zip_cons_cons, List.map_map,
      List.flatten_cons, ih speed (off + c.lengthMs / 1000)]
    have hL : ((fun o => off + o) ∘ fun o => c.lengthMs / 1000 + o)
        = (fun o => off + c.lengthMs / 1000 + o) := by
      funext o
      simp [Function.comp_def, add_assoc]
    rw [hL]
    congr 1
    simp [add_zero]

/-- Claim C10: in both Whisper paths every emitted fragment's start is
(cumulative chunk offset in sped-up seconds + the segment's start within
its chunk) × speed multiplier, and its duration is (segment end − segment
start) × speed multiplier; the unchunked path is the single-chunk
instance of the same arithmetic (offset 0). -/
theorem claim_C10 :
    (∀ (segments : List WhisperSegment) (speed lenMs : ℚ),
      transcribe_audio segments speed = transcribe_audio_chunked [⟨lenMs, segments⟩] speed) ∧
    (∀ (chunks : List AudioChunk) (speed : ℚ),
      transcribe_audio_chunked chunks speed =
        ((chunks.zip (chunkOffsets chunks)).map fun p =>
          p.1.segments.map fun s =>
            (⟨pyStrip s.text, (p.2 + s.start) * speed, (s.stop - s.start) * speed⟩ : Frag)).flatten) := by
  constructor
  · intro segments speed lenMs
    simp [transcribe_audio, transcribe_audio_chunked, transcribeChunkedGo, zero_add]
  · intro chunks speed
    rw [transcribe_audio_chunked, transcribeChunkedGo_spec chunks speed 0]
    simp [zero_add]
